import Mathlib

/-
Verification of the server-management simulation (`serverManager.py`).

The development shallowly embeds the program's data and control flow:

* the Pool Controller's mutable globals (`server_minimum_number`,
  `server_maximum_number`, `number_of_active_processes`) become the
  structure `ServerGlobals`, and the two scale-signal handlers become
  pure state transformers on it;
* the controller's worker list (`server_processes`, a list of child
  pids in creation order) becomes `List Int`, and the grow / shrink
  phases of the reconciliation loop become recursive functions that
  also emit a trace of process events (`PEvent`);
* the SIGCHLD zombie scan, the SIGTERM teardown handler, the
  Coordinator's `createServer` command branch, and the substring-based
  command dispatch of the main loop are each embedded as their own
  function.

Python integers are modelled as `Int`; pids are `Int`.
-/

namespace ServerManager

/-- Process-level events emitted by the controller: forking a worker,
sending SIGKILL to a pid, a blocking `os.wait()`, and a non-blocking
`os.waitpid(-1, WNOHANG)` reap. -/
inductive PEvent where
  | spawn (pid : Int)
  | kill (pid : Int)
  | wait
  | reap
  deriving DecidableEq, Repr

/-- Per-controller copies of the module-level globals: the bounds set in
`create_server` (lines 51-52) and the target count `number_of_active_processes`
set by the Coordinator before forking and mutated by the signal handlers. -/
structure ServerGlobals where
  server_minimum_number : Int
  server_maximum_number : Int
  number_of_active_processes : Int
  deriving DecidableEq, Repr

/-- Embedding of `increment_active_processes` (lines 194-211): the SIGUSR1
handler refuses to push the target past the maximum, otherwise adds one. -/
def increment_active_processes (g : ServerGlobals) : ServerGlobals :=
  if g.number_of_active_processes + 1 > g.server_maximum_number then g
  else { g with number_of_active_processes := g.number_of_active_processes + 1 }

/-- Embedding of `decrement_active_processes` (lines 214-231): the SIGUSR2
handler refuses to push the target below the minimum, otherwise subtracts one. -/
def decrement_active_processes (g : ServerGlobals) : ServerGlobals :=
  if g.number_of_active_processes - 1 < g.server_minimum_number then g
  else { g with number_of_active_processes := g.number_of_active_processes - 1 }

/-- The two scale notifications a controller can receive (SIGUSR1 / SIGUSR2). -/
inductive ScaleSignal where
  | scaleUp
  | scaleDown
  deriving DecidableEq, Repr

/-- Delivery of one scale signal runs the corresponding registered handler. -/
def deliverScale (g : ServerGlobals) : ScaleSignal → ServerGlobals
  | ScaleSignal.scaleUp => increment_active_processes g
  | ScaleSignal.scaleDown => decrement_active_processes g

/-- Delivery of a finite sequence of scale signals, one at a time (handlers
run non-reentrantly). -/
def deliverScales (g : ServerGlobals) (sigs : List ScaleSignal) : ServerGlobals :=
  sigs.foldl deliverScale g

/-- Globals of a freshly created controller: `number_of_active_processes` is
set to the requested minimum by the Coordinator (line 414) before the fork,
and the fork copies the bounds into the child (lines 51-52). -/
def controllerInit (mn mx : Int) : ServerGlobals :=
  ⟨mn, mx, mn⟩

/-- How the grow phase of the reconciliation loop is left: either the pool
settled (`len(server_processes)` reached the target, so the inner
busy-wait at line 82 blocks again), or control falls through to the
shrink loop at line 123. -/
inductive GrowExit where
  | settled
  | toShrink
  deriving DecidableEq, Repr

/-- Embedding of the grow phase (lines 78-119) as resumed at the point
where the busy-wait at lines 82-85 has just observed
`len(server_processes) ≠ number_of_active_processes`.  The code then
checks only `len(server_processes) < maximum_number_of_processes`
(line 88) before forking one replicant and appending its pid; the outer
`while len(server_processes) <= number_of_active_processes` (line 78)
then either re-enters the busy-wait (settled), loops to fork again, or
exits towards the shrink loop.  `fresh` is the pid the next fork would
return; successive forks return successive pids. -/
def growPhase (ws : List Int) (target mx fresh : Int) :
    List Int × List PEvent × GrowExit :=
  if h1 : (ws.length : Int) < mx then
    if h2 : (((ws ++ [fresh]).length : Nat) : Int) ≤ target then
      if h3 : (((ws ++ [fresh]).length : Nat) : Int) = target then
        (ws ++ [fresh], [PEvent.spawn fresh], GrowExit.settled)
      else
        let r := growPhase (ws ++ [fresh]) target mx (fresh + 1)
        (r.1, PEvent.spawn fresh :: r.2.1, r.2.2)
    else (ws ++ [fresh], [PEvent.spawn fresh], GrowExit.toShrink)
  else (ws, [], GrowExit.toShrink)
termination_by (target - (ws.length : Int)).toNat
decreasing_by
  simp only [List.length_append, List.length_cons, List.length_nil] at h2 h3 ⊢
  omega

/-- Embedding of the shrink loop (lines 123-134): while there are more
recorded replicants than the target, `server_processes.pop()` removes the
most recently appended pid, that pid is SIGKILLed, and a blocking
`os.wait()` reaps it before the next iteration.  (With an empty list and
a negative target the Python `pop()` would raise `IndexError`; the
embedding stops instead — no claim exercises that state.) -/
def shrinkPhase (ws : List Int) (target : Int) : List Int × List PEvent :=
  if h : target < (ws.length : Int) then
    match h2 : ws.getLast? with
    | some p =>
      let r := shrinkPhase ws.dropLast target
      (r.1, PEvent.kill p :: PEvent.wait :: r.2)
    | none => (ws, [])
  else (ws, [])
termination_by ws.length
decreasing_by
  have hne : ws ≠ [] := by intro e; subst e; simp at h2
  have hpos : 0 < ws.length := List.length_pos.mpr hne
  simp only [List.length_dropLast]
  omega

/-- One full pass of the reconciliation loop, from the moment the busy-wait
observes a mismatch until the controller blocks again: the grow phase
(lines 78-119) followed, unless the pool settled, by the shrink loop
(lines 123-134). -/
def reconcilePass (ws : List Int) (target mx fresh : Int) :
    List Int × List PEvent :=
  let g := growPhase ws target mx fresh
  match g.2.2 with
  | GrowExit.settled => (g.1, g.2.1)
  | GrowExit.toShrink =>
      let s := shrinkPhase g.1 target
      (s.1, g.2.1 ++ s.2)

/-- Trace of the shrink loop over a list of pids: each pid is SIGKILLed and
then synchronously waited for. -/
def killWaitTrace : List Int → List PEvent
  | [] => []
  | p :: r => PEvent.kill p :: PEvent.wait :: killWaitTrace r

/-- Embedding of the `for pid in server_processes` scan inside
`abnormal_child_exit_handler` (lines 175-188).  `isZ pid` abstracts the
`ps`-based test `"Z+" in status[1]` (whether the pid is a zombie).
Python's `for` keeps an internal index into the list being mutated, so
`server_processes.remove(pid)` (which deletes the first occurrence of
the value) shifts later elements down and the element right after a
removed one is skipped; the index-passing recursion reproduces that. -/
def zombieScan (isZ : Int → Bool) (l : List Int) (i : Nat) : List Int :=
  if h : i < l.length then
    if isZ l[i] then zombieScan isZ (l.erase l[i]) (i + 1)
    else zombieScan isZ l (i + 1)
  else l
termination_by l.length - i
decreasing_by
  · have := List.length_erase_le (l.get ⟨i, h⟩) l
    simp only [List.get_eq_getElem] at this
    omega
  · omega

/-- Embedding of `abnormal_child_exit_handler` (lines 161-191): scan the
recorded pids for zombies, removing each zombie found from the list, then
perform a single non-blocking `os.waitpid(-1, os.WNOHANG)` reap. -/
def abnormal_child_exit_handler (isZ : Int → Bool) (ws : List Int) :
    List Int × List PEvent :=
  (zombieScan isZ ws 0, [PEvent.reap])

/-- Embedding of `terminate_replicants` (lines 234-253), the SIGTERM
handler: SIGKILL each recorded replicant in list order (the `os.wait()`
after each kill is commented out in the source), then SIGKILL the
controller's own pid. -/
def terminate_replicants (ws : List Int) (selfPid : Int) : List PEvent :=
  match ws with
  | [] => [PEvent.kill selfPid]
  | p :: rest => PEvent.kill p :: terminate_replicants rest selfPid

/-- Diagnostic messages the Coordinator's `createServer` branch can print
(lines 394-423 plus the fork-failure message of `create_server`). -/
inductive Msg where
  | invalidServerName
  | duplicateServerName
  | processCountOutOfRange
  | minimumGreaterThanMaximum
  | errorForking
  deriving DecidableEq, Repr

/-- The Coordinator's `server_pids` dictionary as an association list in
insertion order; a value of `none` is Python's `None`. -/
def dirLookup (d : List (String × Option Int)) (k : String) :
    Option (Option Int) :=
  match d with
  | [] => none
  | (k2, v2) :: t => if k2 = k then some v2 else dirLookup t k

/-- Dictionary store `server_pids[k] = v`: replace the value of an existing
key, otherwise append the new binding. -/
def dictInsert (d : List (String × Option Int)) (k : String) (v : Option Int) :
    List (String × Option Int) :=
  match d with
  | [] => [(k, v)]
  | (k2, v2) :: t =>
      if k2 = k then (k2, v) :: t else (k2, v2) :: dictInsert t k v

/-- Manager side of `create_server` (lines 48-146): `forkRes = some pid`
models `os.fork()` succeeding and returning `pid` to the parent, which is
returned at line 142; `forkRes = none` models a failed fork (`OSError`
caught at line 145, or the dead `pid < 0` branch at line 143), after which
the function prints an error and falls off the end, returning `None`. -/
def create_server_manager (forkRes : Option Int) : Option Int × List Msg :=
  match forkRes with
  | some pid => (some pid, [])
  | none => (none, [Msg.errorForking])

/-- Result of one `createServer` command: the directory afterwards, the
diagnostics printed, and whether a Pool Controller process was forked. -/
structure CreateServerResult where
  dir : List (String × Option Int)
  msgs : List Msg
  spawned : Bool
  deriving DecidableEq, Repr

/-- Embedding of the `createServer` branch of the main loop (lines
394-423), from the point where the four tokens have been split and the
numeric arguments parsed.  Note the bounds check at lines 405-407 prints
its message but has no `continue`, so control falls through to the
`max >= min` check, which alone decides whether `create_server` runs and
the name is stored. -/
def handleCreateServer (d : List (String × Option Int)) (mn mx : Int)
    (name : String) (forkRes : Option Int) : CreateServerResult :=
  if name = "" then ⟨d, [Msg.invalidServerName], false⟩
  else if (dirLookup d name).isSome then ⟨d, [Msg.duplicateServerName], false⟩
  else
    let boundsMsgs :=
      if mn < 0 ∨ 10 < mx then [Msg.processCountOutOfRange] else []
    if mn ≤ mx then
      let r := create_server_manager forkRes
      ⟨dictInsert d name r.1, boundsMsgs ++ r.2, r.1.isSome⟩
    else ⟨d, boundsMsgs ++ [Msg.minimumGreaterThanMaximum], false⟩

/-- Directory right after startup (lines 362-370): the Coordinator registers
itself under the reserved name `"Manager"` mapped to its own pid. -/
def initialDirectory (managerPid : Int) : List (String × Option Int) :=
  [("Manager", some managerPid)]

/-- Python's substring test `needle in hay` at an anchored position:
does `needle` start at the head of `hay`? -/
def strStartsWith : List Char → List Char → Bool
  | _, [] => true
  | [], _ :: _ => false
  | a :: rest, b :: bs => a == b && strStartsWith rest bs

/-- Python's substring test `needle in hay` over the characters of the two
strings: does `needle` occur contiguously anywhere in `hay`? -/
def strContains : List Char → List Char → Bool
  | [], needle => needle.isEmpty
  | a :: t, needle => strStartsWith (a :: t) needle || strContains t needle

/-- The branch of the main command loop that handles an input line. -/
inductive Branch where
  | createServer
  | abortServer
  | createProcess
  | abortProcess
  | displayStatus
  | unrecognized
  deriving DecidableEq, Repr

/-- Embedding of the command dispatch of the main loop (lines 377-502):
each guard is Python's substring test `"commandName" in command` on the raw
input line, tried in source order; there is no tokenization before the
tests. -/
def dispatch (cmd : List Char) : Branch :=
  if strContains cmd ("createServer".toList) then Branch.createServer
  else if strContains cmd ("abortServer".toList) then Branch.abortServer
  else if strContains cmd ("createProcess".toList) then Branch.createProcess
  else if strContains cmd ("abortProcess".toList) then Branch.abortProcess
  else if strContains cmd ("displayStatus".toList) then Branch.displayStatus
  else Branch.unrecognized

theorem deliverScale_min (g : ServerGlobals) (s : ScaleSignal) :
    (deliverScale g s).server_minimum_number = g.server_minimum_number := by
  cases s <;>
    simp only [deliverScale, increment_active_processes, decrement_active_processes] <;>
    split <;> rfl

theorem deliverScale_max (g : ServerGlobals) (s : ScaleSignal) :
    (deliverScale g s).server_maximum_number = g.server_maximum_number := by
  cases s <;>
    simp only [deliverScale, increment_active_processes, decrement_active_processes] <;>
    split <;> rfl

theorem deliverScale_bounds (g : ServerGlobals) (s : ScaleSignal)
    (h1 : g.server_minimum_number ≤ g.number_of_active_processes)
    (h2 : g.number_of_active_processes ≤ g.server_maximum_number) :
    g.server_minimum_number ≤ (deliverScale g s).number_of_active_processes ∧
      (deliverScale g s).number_of_active_processes ≤ g.server_maximum_number := by
  cases s
  · simp only [deliverScale, increment_active_processes]
    split
    · exact ⟨h1, h2⟩
    · exact ⟨show g.server_minimum_number ≤ g.number_of_active_processes + 1 by omega,
        show g.number_of_active_processes + 1 ≤ g.server_maximum_number by omega⟩
  · simp only [deliverScale, decrement_active_processes]
    split
    · exact ⟨h1, h2⟩
    · exact ⟨show g.server_minimum_number ≤ g.number_of_active_processes - 1 by omega,
        show g.number_of_active_processes - 1 ≤ g.server_maximum_number by omega⟩

theorem deliverScales_min (g : ServerGlobals) (sigs : List ScaleSignal) :
    (deliverScales g sigs).server_minimum_number = g.server_minimum_number := by
  induction sigs generalizing g with
  | nil => rfl
  | cons s rest ih =>
      simp only [deliverScales, List.foldl_cons] at *
      rw [ih, deliverScale_min]

theorem deliverScales_max (g : ServerGlobals) (sigs : List ScaleSignal) :
    (deliverScales g sigs).server_maximum_number = g.server_maximum_number := by
  induction sigs generalizing g with
  | nil => rfl
  | cons s rest ih =>
      simp only [deliverScales, List.foldl_cons] at *
      rw [ih, deliverScale_max]

theorem deliverScales_bounds (g : ServerGlobals) (sigs : List ScaleSignal)
    (h1 : g.server_minimum_number ≤ g.number_of_active_processes)
    (h2 : g.number_of_active_processes ≤ g.server_maximum_number) :
    g.server_minimum_number ≤ (deliverScales g sigs).number_of_active_processes ∧
      (deliverScales g sigs).number_of_active_processes ≤ g.server_maximum_number := by
  induction sigs generalizing g with
  | nil => exact ⟨h1, h2⟩
  | cons s rest ih =>
      simp only [deliverScales, List.foldl_cons] at *
      have hb := deliverScale_bounds g s h1 h2
      have h1' : (deliverScale g s).server_minimum_number ≤
          (deliverScale g s).number_of_active_processes := by
        rw [deliverScale_min]; exact hb.1
      have h2' : (deliverScale g s).number_of_active_processes ≤
          (deliverScale g s).server_maximum_number := by
        rw [deliverScale_max]; exact hb.2
      have hres := ih (deliverScale g s) h1' h2'
      rwa [deliverScale_min, deliverScale_max] at hres
theorem growPhase_stuck (ws : List Int) (t mx f : Int)
    (h : mx ≤ (ws.length : Int)) :
    growPhase ws t mx f = (ws, [], GrowExit.toShrink) := by
  unfold growPhase
  rw [dif_neg (by omega)]

theorem growPhase_over (ws : List Int) (t mx f : Int)
    (hlt : (ws.length : Int) < mx) (hgt : t < (ws.length : Int) + 1) :
    growPhase ws t mx f = (ws ++ [f], [PEvent.spawn f], GrowExit.toShrink) := by
  unfold growPhase
  rw [dif_pos hlt, dif_neg (by
    simp only [List.length_append, List.length_cons, List.length_nil]
    omega)]

theorem growPhase_settle (ws : List Int) (t mx f : Int)
    (hlt : (ws.length : Int) < mx) (heq : (ws.length : Int) + 1 = t) :
    growPhase ws t mx f = (ws ++ [f], [PEvent.spawn f], GrowExit.settled) := by
  unfold growPhase
  rw [dif_pos hlt, dif_pos (by
      simp only [List.length_append, List.length_cons, List.length_nil]
      omega),
    dif_pos (by
      simp only [List.length_append, List.length_cons, List.length_nil]
      omega)]

theorem shrinkPhase_spec_aux (t : Int) (ht : 0 ≤ t) :
    ∀ (n : Nat) (ws : List Int), ws.length ≤ n →
      shrinkPhase ws t =
        (ws.take t.toNat, killWaitTrace ((ws.drop t.toNat).reverse)) := by
  intro n
  induction n with
  | zero =>
      intro ws hlen
      have hws : ws = [] := List.eq_nil_of_length_eq_zero (Nat.le_zero.mp hlen)
      subst hws
      unfold shrinkPhase
      rw [dif_neg (by simp; omega)]
      simp [killWaitTrace]
  | succ n ih =>
      intro ws hlen
      by_cases hc : t < (ws.length : Int)
      · have hne : ws ≠ [] := by
          intro e
          subst e
          simp at hc
          omega
        have hlast : ws.getLast? = some (ws.getLast hne) :=
          List.getLast?_eq_getLast ws hne
        have hk : t.toNat ≤ ws.dropLast.length := by
          simp only [List.length_dropLast]
          omega
        unfold shrinkPhase
        rw [dif_pos hc]
        have ihd := ih ws.dropLast (by
          simp only [List.length_dropLast]
          omega)
        rw [hlast]
        simp only [ihd, Prod.mk.injEq]
        constructor
        · rw [List.dropLast_eq_take, List.take_take]
          congr 1
          simp only [List.length_dropLast] at hk
          omega
        · have hsplit : ws.dropLast ++ [ws.getLast hne] = ws :=
            List.dropLast_append_getLast hne
          have hdrop : ws.drop t.toNat =
              ws.dropLast.drop t.toNat ++ [ws.getLast hne] := by
            conv_lhs => rw [← hsplit]
            rw [List.drop_append_of_le_length hk]
          rw [hdrop, List.reverse_append]
          simp [killWaitTrace]
      · unfold shrinkPhase
        rw [dif_neg hc]
        have hlen2 : ws.length ≤ t.toNat := by omega
        rw [List.take_of_length_le hlen2, List.drop_eq_nil_of_le hlen2]
        simp [killWaitTrace]

theorem shrinkPhase_spec (ws : List Int) (t : Int) (ht : 0 ≤ t) :
    shrinkPhase ws t =
      (ws.take t.toNat, killWaitTrace ((ws.drop t.toNat).reverse)) :=
  shrinkPhase_spec_aux t ht ws.length ws (Nat.le_refl _)
theorem zombieScan_none (isZ : Int → Bool) :
    ∀ (n : Nat) (l : List Int) (i : Nat), l.length - i ≤ n →
      (∀ x ∈ l, isZ x = false) → zombieScan isZ l i = l := by
  intro n
  induction n with
  | zero =>
      intro l i hle hall
      unfold zombieScan
      rw [dif_neg (by omega)]
  | succ n ih =>
      intro l i hle hall
      by_cases h : i < l.length
      · unfold zombieScan
        rw [dif_pos h]
        have hz : isZ l[i] = false := hall _ (l.getElem_mem h)
        rw [if_neg (by simp [hz])]
        exact ih l (i + 1) (by omega) hall
      · unfold zombieScan
        rw [dif_neg h]

theorem zombieScan_single (isZ : Int → Bool) (z : Int) :
    ∀ (n : Nat) (l : List Int) (i : Nat), l.length - i ≤ n →
      l.Nodup → (∀ x ∈ l, (isZ x = true ↔ x = z)) → z ∈ l.drop i →
      zombieScan isZ l i = l.erase z := by
  intro n
  induction n with
  | zero =>
      intro l i hle hnd hone hz
      rw [List.drop_eq_nil_of_le (by omega)] at hz
      exact absurd hz (List.not_mem_nil z)
  | succ n ih =>
      intro l i hle hnd hone hz
      by_cases h : i < l.length
      · unfold zombieScan
        rw [dif_pos h]
        by_cases hzi : isZ l[i] = true
        · have hpid : l[i] = z := (hone _ (l.getElem_mem h)).mp hzi
          rw [if_pos hzi, hpid]
          apply zombieScan_none isZ ((l.erase z).length) (l.erase z) (i + 1)
            (by omega)
          intro x hx
          have hx2 := (List.Nodup.mem_erase_iff hnd).mp hx
          cases hxx : isZ x with
          | false => rfl
          | true => exact absurd ((hone x hx2.2).mp hxx) hx2.1
        · have hpid : l[i] ≠ z := by
            intro e
            exact hzi ((hone _ (l.getElem_mem h)).mpr e)
          rw [if_neg hzi]
          apply ih l (i + 1) (by omega) hnd hone
          rw [List.drop_eq_getElem_cons h] at hz
          cases hz with
          | head => exact absurd rfl (fun e => hpid e.symm)
          | tail _ hmem => exact hmem
      · rw [List.drop_eq_nil_of_le (by omega)] at hz
        exact absurd hz (List.not_mem_nil z)
theorem dirLookup_dictInsert (d : List (String × Option Int)) (k : String)
    (v : Option Int) : dirLookup (dictInsert d k v) k = some v := by
  induction d with
  | nil => simp [dictInsert, dirLookup]
  | cons p t ih =>
      obtain ⟨k2, v2⟩ := p
      by_cases h : k2 = k
      · simp [dictInsert, dirLookup, h]
      · simp [dictInsert, dirLookup, h, ih]

theorem increment_target_eq (g : ServerGlobals) :
    (increment_active_processes g).number_of_active_processes =
      if g.server_maximum_number < g.number_of_active_processes + 1
      then g.number_of_active_processes
      else g.number_of_active_processes + 1 := by
  unfold increment_active_processes
  by_cases hc : g.server_maximum_number < g.number_of_active_processes + 1
  · rw [if_pos hc, if_pos hc]
  · rw [if_neg hc, if_neg hc]

theorem decrement_target_eq (g : ServerGlobals) :
    (decrement_active_processes g).number_of_active_processes =
      if g.number_of_active_processes - 1 < g.server_minimum_number
      then g.number_of_active_processes
      else g.number_of_active_processes - 1 := by
  unfold decrement_active_processes
  by_cases hc : g.number_of_active_processes - 1 < g.server_minimum_number
  · rw [if_pos hc, if_pos hc]
  · rw [if_neg hc, if_neg hc]

/-- C3: a controller created with `target = min ≤ max` keeps
`min ≤ target ≤ max` after every finite sequence of scale-up / scale-down
notifications, and at every reachable state a scale-up with
`target + 1 > max` leaves the target unchanged (else adds exactly 1) and a
scale-down with `target - 1 < min` leaves it unchanged (else subtracts
exactly 1). -/
theorem scale_signals_keep_target_in_bounds (mn mx : Int) (h : mn ≤ mx)
    (sigs : List ScaleSignal) :
    (mn ≤ (deliverScales (controllerInit mn mx) sigs).number_of_active_processes ∧
      (deliverScales (controllerInit mn mx) sigs).number_of_active_processes ≤ mx) ∧
    (deliverScale (deliverScales (controllerInit mn mx) sigs)
        ScaleSignal.scaleUp).number_of_active_processes =
      (if mx <
          (deliverScales (controllerInit mn mx) sigs).number_of_active_processes + 1
       then (deliverScales (controllerInit mn mx) sigs).number_of_active_processes
       else (deliverScales (controllerInit mn mx) sigs).number_of_active_processes
              + 1) ∧
    (deliverScale (deliverScales (controllerInit mn mx) sigs)
        ScaleSignal.scaleDown).number_of_active_processes =
      (if (deliverScales (controllerInit mn mx) sigs).number_of_active_processes
            - 1 < mn
       then (deliverScales (controllerInit mn mx) sigs).number_of_active_processes
       else (deliverScales (controllerInit mn mx) sigs).number_of_active_processes
              - 1) := by
  have hmin := deliverScales_min (controllerInit mn mx) sigs
  have hmax := deliverScales_max (controllerInit mn mx) sigs
  have hb := deliverScales_bounds (controllerInit mn mx) sigs (le_refl mn) h
  refine ⟨hb, ?_, ?_⟩
  · show (increment_active_processes _).number_of_active_processes = _
    rw [increment_target_eq, hmax]
    rfl
  · show (decrement_active_processes _).number_of_active_processes = _
    rw [decrement_target_eq, hmin]
    rfl

/-- Witness for C3: bounds (0, 2) with three scale-ups followed by three
scale-downs; the third of each is rejected at the bound. -/
theorem scale_signals_keep_target_in_bounds_witness :
    (0 : Int) ≤ 2 ∧
    ((0 ≤ (deliverScales (controllerInit 0 2)
        [ScaleSignal.scaleUp, ScaleSignal.scaleUp, ScaleSignal.scaleUp,
         ScaleSignal.scaleDown, ScaleSignal.scaleDown,
         ScaleSignal.scaleDown]).number_of_active_processes ∧
      (deliverScales (controllerInit 0 2)
        [ScaleSignal.scaleUp, ScaleSignal.scaleUp, ScaleSignal.scaleUp,
         ScaleSignal.scaleDown, ScaleSignal.scaleDown,
         ScaleSignal.scaleDown]).number_of_active_processes ≤ 2) ∧
    (deliverScale (deliverScales (controllerInit 0 2)
        [ScaleSignal.scaleUp, ScaleSignal.scaleUp, ScaleSignal.scaleUp,
         ScaleSignal.scaleDown, ScaleSignal.scaleDown,
         ScaleSignal.scaleDown])
        ScaleSignal.scaleUp).number_of_active_processes =
      (if 2 <
          (deliverScales (controllerInit 0 2)
            [ScaleSignal.scaleUp, ScaleSignal.scaleUp, ScaleSignal.scaleUp,
             ScaleSignal.scaleDown, ScaleSignal.scaleDown,
             ScaleSignal.scaleDown]).number_of_active_processes + 1
       then (deliverScales (controllerInit 0 2)
            [ScaleSignal.scaleUp, ScaleSignal.scaleUp, ScaleSignal.scaleUp,
             ScaleSignal.scaleDown, ScaleSignal.scaleDown,
             ScaleSignal.scaleDown]).number_of_active_processes
       else (deliverScales (controllerInit 0 2)
            [ScaleSignal.scaleUp, ScaleSignal.scaleUp, ScaleSignal.scaleUp,
             ScaleSignal.scaleDown, ScaleSignal.scaleDown,
             ScaleSignal.scaleDown]).number_of_active_processes + 1) ∧
    (deliverScale (deliverScales (controllerInit 0 2)
        [ScaleSignal.scaleUp, ScaleSignal.scaleUp, ScaleSignal.scaleUp,
         ScaleSignal.scaleDown, ScaleSignal.scaleDown,
         ScaleSignal.scaleDown])
        ScaleSignal.scaleDown).number_of_active_processes =
      (if (deliverScales (controllerInit 0 2)
            [ScaleSignal.scaleUp, ScaleSignal.scaleUp, ScaleSignal.scaleUp,
             ScaleSignal.scaleDown, ScaleSignal.scaleDown,
             ScaleSignal.scaleDown]).number_of_active_processes - 1 < 0
       then (deliverScales (controllerInit 0 2)
            [ScaleSignal.scaleUp, ScaleSignal.scaleUp, ScaleSignal.scaleUp,
             ScaleSignal.scaleDown, ScaleSignal.scaleDown,
             ScaleSignal.scaleDown]).number_of_active_processes
       else (deliverScales (controllerInit 0 2)
            [ScaleSignal.scaleUp, ScaleSignal.scaleUp, ScaleSignal.scaleUp,
             ScaleSignal.scaleDown, ScaleSignal.scaleDown,
             ScaleSignal.scaleDown]).number_of_active_processes - 1)) :=
  ⟨by decide,
    scale_signals_keep_target_in_bounds 0 2 (by decide)
      [ScaleSignal.scaleUp, ScaleSignal.scaleUp, ScaleSignal.scaleUp,
       ScaleSignal.scaleDown, ScaleSignal.scaleDown, ScaleSignal.scaleDown]⟩

/-- C6: whenever there are more recorded workers than the target, the
shrink loop repeatedly removes the most recently appended worker handle
(LIFO), SIGKILLs it and synchronously waits before the next removal: the
surviving workers are the first `target` appended, and the event trace
kills the dropped handles newest-first, each kill followed by a wait. -/
theorem shrink_removes_newest_kills_then_waits (ws : List Int) (t : Int)
    (ht : 0 ≤ t) (_hgt : t < (ws.length : Int)) :
    shrinkPhase ws t =
      (ws.take t.toNat, killWaitTrace ((ws.drop t.toNat).reverse)) :=
  shrinkPhase_spec ws t ht

/-- Witness for C6: workers [5, 6, 7] with target 1: worker 7 then worker 6
are killed, each followed by a wait, and worker 5 survives. -/
theorem shrink_removes_newest_kills_then_waits_witness :
    (0 : Int) ≤ 1 ∧ (1 : Int) < (([5, 6, 7] : List Int).length : Int) ∧
    shrinkPhase [5, 6, 7] 1 =
      ([5], [PEvent.kill 7, PEvent.wait, PEvent.kill 6, PEvent.wait]) :=
  ⟨by decide, by decide,
    (shrink_removes_newest_kills_then_waits [5, 6, 7] 1 (by decide)
      (by decide)).trans (by decide)⟩

/-- C7: the SIGTERM handler SIGKILLs every recorded worker in the order the
handles are stored and only afterwards SIGKILLs the controller itself; the
self-kill is the final event, so nothing further is processed. -/
theorem terminate_kills_workers_in_order_then_self (ws : List Int)
    (selfPid : Int) :
    terminate_replicants ws selfPid =
      ws.map PEvent.kill ++ [PEvent.kill selfPid] := by
  induction ws with
  | nil => rfl
  | cons p rest ih => simp [terminate_replicants, ih]

/-- Counterexample to C2 as stated: a reconciliation pass entered with
workers [1, 2], target 1 and max 3 — the target was lowered below the
settled count — begins by spawning a new worker (pid 7), because the spawn
guard at line 88 checks only `len(server_processes) < max`, and only then
kills the excess workers; so a spawn does occur although
`len(workers) < target` is false. -/
theorem reconcile_spawn_despite_target_below_len :
    (1 : Int) < (([1, 2] : List Int).length : Int) ∧
    reconcilePass [1, 2] 1 3 7 =
      ([1], [PEvent.spawn 7, PEvent.kill 7, PEvent.wait,
             PEvent.kill 2, PEvent.wait]) := by
  refine ⟨by decide, ?_⟩
  have hg := growPhase_over [1, 2] 1 3 7 (by decide) (by decide)
  have hs := shrinkPhase_spec [1, 2, 7] 1 (by decide)
  simp only [reconcilePass, hg, List.cons_append, List.nil_append, hs]
  decide

/-- C2 amended: in a reconciliation pass the spawn guard is
`len(workers) < max`, not `len(workers) < target`; a pass entered with
`target < len(workers)` (the target was lowered while the pool was
settled) and `len(workers) < max` first spawns exactly one additional
worker and then kills the excess workers — the fresh one first — down to
`target`. -/
theorem reconcile_scale_down_spawns_one_extra (ws : List Int)
    (t mx fresh : Int) (ht : 0 ≤ t) (hlt : t < (ws.length : Int))
    (hmx : (ws.length : Int) < mx) :
    reconcilePass ws t mx fresh =
      ((ws ++ [fresh]).take t.toNat,
        PEvent.spawn fresh ::
          killWaitTrace (((ws ++ [fresh]).drop t.toNat).reverse)) := by
  have hg := growPhase_over ws t mx fresh hmx (by omega)
  have hs := shrinkPhase_spec (ws ++ [fresh]) t ht
  simp only [reconcilePass, hg, hs, List.cons_append, List.nil_append]

/-- Witness for the amended C2 at workers [1, 2], target 1, max 3. -/
theorem reconcile_scale_down_spawns_one_extra_witness :
    (0 : Int) ≤ 1 ∧ (1 : Int) < (([1, 2] : List Int).length : Int) ∧
    (([1, 2] : List Int).length : Int) < 3 ∧
    reconcilePass [1, 2] 1 3 7 =
      ((([1, 2] : List Int) ++ [7]).take (1 : Int).toNat,
        PEvent.spawn 7 ::
          killWaitTrace (((([1, 2] : List Int) ++ [7]).drop
            (1 : Int).toNat).reverse)) :=
  ⟨by decide, by decide, by decide,
    reconcile_scale_down_spawns_one_extra [1, 2] 1 3 7 (by decide) (by decide)
      (by decide)⟩

/-- C8: if exactly one of the distinct recorded workers, `z`, is a zombie
(killed out of band) while the pool is settled (`len(workers) = target ≤
max`), then the SIGCHLD handler removes exactly `z` from the list and
performs exactly one reap, and the next reconciliation pass spawns exactly
one replacement worker, restoring `len(workers) = target`. -/
theorem single_crash_single_reap_single_respawn (ws : List Int)
    (isZ : Int → Bool) (z t mx fresh : Int) (hnd : ws.Nodup) (hz : z ∈ ws)
    (hone : ∀ x ∈ ws, (isZ x = true ↔ x = z))
    (hlen : (ws.length : Int) = t) (htm : t ≤ mx) :
    abnormal_child_exit_handler isZ ws = (ws.erase z, [PEvent.reap]) ∧
    reconcilePass (ws.erase z) t mx fresh =
      (ws.erase z ++ [fresh], [PEvent.spawn fresh]) ∧
    ((ws.erase z ++ [fresh]).length : Int) = t := by
  have hscan := zombieScan_single isZ z ws.length ws 0 (by omega) hnd hone
    (by simpa using hz)
  have herase : (ws.erase z).length = ws.length - 1 :=
    List.length_erase_of_mem hz
  have hpos : 0 < ws.length := List.length_pos.mpr (List.ne_nil_of_mem hz)
  refine ⟨?_, ?_, ?_⟩
  · simp [abnormal_child_exit_handler, hscan]
  · have hg := growPhase_settle (ws.erase z) t mx fresh (by omega) (by omega)
    simp only [reconcilePass, hg]
  · simp only [List.length_append, List.length_cons, List.length_nil, herase]
    omega

/-- Witness for C8: workers [3, 4, 5] with target 3 = max, worker 4 dead. -/
theorem single_crash_single_reap_single_respawn_witness :
    (([3, 4, 5] : List Int).Nodup ∧ (4 : Int) ∈ ([3, 4, 5] : List Int) ∧
      (∀ x ∈ ([3, 4, 5] : List Int),
        ((fun y : Int => y == 4) x = true ↔ x = 4)) ∧
      ((([3, 4, 5] : List Int).length : Int) = 3) ∧ (3 : Int) ≤ 3) ∧
    (abnormal_child_exit_handler (fun y : Int => y == 4) [3, 4, 5] =
      (([3, 4, 5] : List Int).erase 4, [PEvent.reap]) ∧
    reconcilePass (([3, 4, 5] : List Int).erase 4) 3 3 9 =
      (([3, 4, 5] : List Int).erase 4 ++ [9], [PEvent.spawn 9]) ∧
    (((([3, 4, 5] : List Int).erase 4 ++ [9]).length : Int) = 3)) :=
  ⟨⟨by decide, by decide, by decide, by decide, by decide⟩,
    single_crash_single_reap_single_respawn [3, 4, 5]
      (fun y : Int => y == 4) 4 3 3 9 (by decide) (by decide) (by decide)
      (by decide) (by decide)⟩

/-- C1 (code bug): `createServer -1 5 B` on a fresh directory.  The bounds
check at lines 405-407 prints "Number of processes must be between 0 and
10" but, unlike every sibling validation, has no `continue`; since
`5 >= -1`, control falls into the creation branch anyway: a Pool
Controller is forked and "B" is registered, so the directory changes
despite the rejection diagnostic. -/
theorem createServer_bounds_check_falls_through :
    handleCreateServer (initialDirectory 100) (-1) 5 "B" (some 101) =
      ⟨[("Manager", some 100), ("B", some 101)],
        [Msg.processCountOutOfRange], true⟩ := by
  decide

/-- C4: every `createServer` request with `min > max` is rejected: the
directory is unchanged, no Pool Controller is forked, and at least one
diagnostic is printed. -/
theorem createServer_rejects_min_gt_max (d : List (String × Option Int))
    (mn mx : Int) (name : String) (forkRes : Option Int) (h : mx < mn) :
    (handleCreateServer d mn mx name forkRes).dir = d ∧
    (handleCreateServer d mn mx name forkRes).spawned = false ∧
    (handleCreateServer d mn mx name forkRes).msgs ≠ [] := by
  have hnot : ¬ mn ≤ mx := by omega
  refine ⟨?_, ?_, ?_⟩ <;>
    · simp only [handleCreateServer]
      split_ifs <;> simp_all

/-- Witness for C4: the scenario `createServer 4 2 C` on a fresh
directory. -/
theorem createServer_rejects_min_gt_max_witness :
    (2 : Int) < 4 ∧
    ((handleCreateServer (initialDirectory 100) 4 2 "C" (some 101)).dir =
        initialDirectory 100 ∧
      (handleCreateServer (initialDirectory 100) 4 2 "C"
        (some 101)).spawned = false ∧
      (handleCreateServer (initialDirectory 100) 4 2 "C"
        (some 101)).msgs ≠ []) :=
  ⟨by decide,
    createServer_rejects_min_gt_max (initialDirectory 100) 4 2 "C"
      (some 101) (by decide)⟩

/-- C5: every `createServer` request whose (non-empty) name is already a
key of the directory — the reserved "Manager" entry included — is rejected
as a duplicate with the directory unchanged and nothing forked. -/
theorem createServer_rejects_duplicate_name (d : List (String × Option Int))
    (mn mx : Int) (name : String) (forkRes : Option Int) (hne : name ≠ "")
    (hdup : (dirLookup d name).isSome = true) :
    handleCreateServer d mn mx name forkRes =
      ⟨d, [Msg.duplicateServerName], false⟩ := by
  simp only [handleCreateServer]
  rw [if_neg hne, if_pos hdup]

/-- Witness for C5: re-using the Coordinator's own reserved name
"Manager" on the startup directory. -/
theorem createServer_rejects_duplicate_name_witness :
    ("Manager" ≠ "") ∧
    (dirLookup (initialDirectory 100) "Manager").isSome = true ∧
    handleCreateServer (initialDirectory 100) 1 2 "Manager" (some 101) =
      ⟨initialDirectory 100, [Msg.duplicateServerName], false⟩ :=
  ⟨by decide, by decide,
    createServer_rejects_duplicate_name (initialDirectory 100) 1 2 "Manager"
      (some 101) (by decide) (by decide)⟩

/-- C10: when the fork of the Pool Controller fails, `create_server`
returns `None`, yet the Coordinator still executes
`server_pids[name] = create_server(...)`: nothing is spawned, but the name
is bound to the absent handle `None` in the directory. -/
theorem createServer_fork_failure_registers_none
    (d : List (String × Option Int)) (mn mx : Int) (name : String)
    (hne : name ≠ "") (habs : (dirLookup d name).isSome = false)
    (hok : mn ≤ mx) :
    (handleCreateServer d mn mx name none).spawned = false ∧
    (handleCreateServer d mn mx name none).dir = dictInsert d name none ∧
    dirLookup (handleCreateServer d mn mx name none).dir name = some none := by
  have hd : handleCreateServer d mn mx name none =
      ⟨dictInsert d name none,
        (if mn < 0 ∨ 10 < mx then [Msg.processCountOutOfRange] else []) ++
          [Msg.errorForking], false⟩ := by
    simp only [handleCreateServer, create_server_manager]
    rw [if_neg hne, if_neg (by simp [habs]), if_pos hok]
    rfl
  rw [hd]
  exact ⟨rfl, rfl, dirLookup_dictInsert d name none⟩

/-- Witness for C10: `createServer 1 3 B` on a fresh directory with the
fork failing. -/
theorem createServer_fork_failure_registers_none_witness :
    ("B" ≠ "") ∧ (dirLookup (initialDirectory 100) "B").isSome = false ∧
    (1 : Int) ≤ 3 ∧
    ((handleCreateServer (initialDirectory 100) 1 3 "B" none).spawned =
        false ∧
      (handleCreateServer (initialDirectory 100) 1 3 "B" none).dir =
        dictInsert (initialDirectory 100) "B" none ∧
      dirLookup (handleCreateServer (initialDirectory 100) 1 3 "B" none).dir
        "B" = some none) :=
  ⟨by decide, by decide, by decide,
    createServer_fork_failure_registers_none (initialDirectory 100) 1 3 "B"
      (by decide) (by decide) (by decide)⟩

/-- C9: command dispatch is substring matching, tried in source order:
every input line in which "createServer" occurs anywhere — regardless of
position, surrounding characters, or other command names also occurring —
is handled by the createServer branch. -/
theorem dispatch_matches_createServer_substring (cmd : List Char)
    (h : strContains cmd ("createServer".toList) = true) :
    dispatch cmd = Branch.createServer := by
  simp only [dispatch]
  rw [if_pos h]

/-- Witness for C9: a line containing both "abortServer" and
"createServer" (neither at the start) dispatches to createServer. -/
theorem dispatch_matches_createServer_substring_witness :
    strContains (" abortServer xcreateServery 1 2 A".toList)
      ("createServer".toList) = true ∧
    strContains (" abortServer xcreateServery 1 2 A".toList)
      ("abortServer".toList) = true ∧
    dispatch (" abortServer xcreateServery 1 2 A".toList) =
      Branch.createServer :=
  ⟨by decide, by decide,
    dispatch_matches_createServer_substring _ (by decide)⟩

end ServerManager
